import Mathlib

/-!
Shallow embedding of the `@oada/jobs` job-lifecycle engine and report
subsystem, with theorems checking the natural-language specification
against the code.
-/

set_option maxRecDepth 10000

namespace OadaJobs

/-- JSON values as stored in OADA documents.  Objects are association
lists in document (insertion) order, mirroring JavaScript object
semantics. -/
inductive Json where
  | null : Json
  | bool : Bool → Json
  | num : Int → Json
  | str : String → Json
  | arr : List Json → Json
  | obj : List (String × Json) → Json
deriving Repr

/-- First-occurrence association-list lookup (JavaScript property read). -/
def getKey : List (String × Json) → String → Option Json
  | [], _ => none
  | (k', v) :: rest, k => if k' = k then some v else getKey rest k

/-- JavaScript property assignment `o[k] = v`: replace the value at an
existing key in place, else append the key at the end. -/
def jsSet : List (String × Json) → String → Json → List (String × Json)
  | [], k, v => [(k, v)]
  | (k', v') :: rest, k, v =>
    if k' = k then (k, v) :: rest else (k', v') :: jsSet rest k v

/-- JavaScript truthiness of a JSON value (`undefined` is handled as
`Option.none` at use sites). -/
def jsTruthy : Json → Bool
  | .null => false
  | .bool b => b
  | .num n => n != 0
  | .str s => s != ""
  | .arr _ => true
  | .obj _ => true

/-- Truthiness of an optional JSON value (a missing property is falsy). -/
def jsTruthyOpt : Option Json → Bool
  | none => false
  | some v => jsTruthy v

/-- Property read on an arbitrary JSON value: only objects have
(own) properties; everything else yields `undefined`. -/
def jsGet : Json → String → Option Json
  | .obj o, k => getKey o k
  | _, _ => none

/-- Generic association-list set with replace-in-place semantics,
for the store indexes keyed by things other than plain strings. -/
def assocSet {κ α : Type} [DecidableEq κ] : List (κ × α) → κ → α → List (κ × α)
  | [], k, v => [(k, v)]
  | (k', v') :: rest, k, v =>
    if k' = k then (k, v) :: rest else (k', v') :: assocSet rest k v

/-- Generic association-list first-occurrence lookup. -/
def assocGet {κ α : Type} [DecidableEq κ] : List (κ × α) → κ → Option α
  | [], _ => none
  | (k', v) :: rest, k => if k' = k then some v else assocGet rest k

/-! ## Job records (`src/Job.ts`)

A `Job` instance as the `Runner` sees it: identity, type, status and the
ordered updates log (`Object.entries` order of the `updates` mapping). -/

/-- One entry of a job's `updates` log: `{status, time, meta}`. -/
structure JobUpdate where
  status : String
  time : String
deriving Repr, DecidableEq

/-- The fields of a `Job` record that `Runner.run` consults. -/
structure JobRec where
  oadaId : String
  type : String
  status : Option String
  updates : Option (List (String × JobUpdate))
deriving Repr

/-! ## Worker registry (`src/Service.ts`) -/

/-- A registered worker: `{work, timeout}`.  The work function itself is
abstracted by a `WorkerOutcome` at the `run` call site. -/
structure Worker where
  timeout : Nat
deriving Repr, DecidableEq

/-- `Service.getWorker` consults the registry map. -/
def Service.getWorker (workers : List (String × Worker)) (type : String) :
    Option Worker :=
  assocGet workers type

/-! ## Errors

JavaScript error values reaching `Runner.run`'s catch block, and the
`serialize-error` rendering used by `Runner.finish`. -/

/-- A JavaScript `Error` as relevant here: `name`, `message`, `stack`, and
the optional `JobError` kind tag carried by `JobError` instances. -/
structure JsError where
  name : String
  message : String
  stack : String
  jobError : Option String
deriving Repr, DecidableEq

/-- The error `Service.getWorker` throws for an unregistered type: a plain
`Error`, carrying no `JobError` tag. -/
def noWorkerError (type : String) : JsError :=
  { name := "Error"
    message := "No worker registered for " ++ type
    stack := ""
    jobError := none }

/-- The `TimeoutError` that `p-timeout` rejects with after
`worker.timeout` ms, carrying the configured message. -/
def timeoutError (timeout : Nat) : JsError :=
  { name := "TimeoutError"
    message :=
      "Job exceeded the allowed " ++ toString timeout ++ " ms running limit"
    stack := ""
    jobError := none }

/-- The value passed as `result` to `Runner.finish`: either a JSON value
(worker return, or the `{}` of the short-circuit paths) or a thrown
`Error` object. -/
inductive FinishArg where
  | json : Json → FinishArg
  | err : JsError → FinishArg
deriving Repr

/-- `serialize-error`'s `serializeError`: an `Error` becomes a plain
object of its `name`, `message` and `stack`; a non-error JSON value is
returned as (a copy of) itself. -/
def serializeErrorArg : FinishArg → Json
  | .err e =>
    .obj [("name", .str e.name), ("message", .str e.message),
          ("stack", .str e.stack)]
  | .json j => j

/-! ## `Runner.run` (`src/Runner.ts`, current snapshot)

The run method is embedded as a function from the job, the worker
registry and the worker's settlement (`WorkerOutcome`) to a trace of the
observable actions: whether the registry was consulted, whether the
worker was invoked, whether the `started` update was posted, and the one
`finish(status, result, time, failType)` call it makes. -/

/-- How the user worker's promise settles (the only unbounded suspension
point; real time is abstracted into the three-way outcome). -/
inductive WorkerOutcome where
  | resolved : Json → WorkerOutcome
  | threw : JsError → WorkerOutcome
  | timedOut : WorkerOutcome
deriving Repr

/-- The arguments of the single `finish` call `run` performs. -/
structure FinishCallArgs where
  status : String
  result : FinishArg
  time : String
  failType : Option String
deriving Repr

/-- Observable trace of one `Runner.run` invocation. -/
structure RunTrace where
  workerLookedUp : Bool
  workerInvoked : Bool
  startedPosted : Bool
  call : FinishCallArgs
deriving Repr

/-- `run`'s short-circuit time: the first entry of the updates log (in
`Object.entries` order) whose `status` equals the job's status, else the
wall clock `now`. -/
def shortCircuitTime (job : JobRec) (s : String) (now : String) : String :=
  match (job.updates.getD []).find? (fun ku => ku.2.status = s) with
  | some ku => ku.2.time
  | none => now

/-- `Runner.run`.  `now` stands for `moment()` at the points the code
reads the wall clock. -/
def Runner.run (workers : List (String × Worker)) (job : JobRec)
    (outcome : WorkerOutcome) (now : String) : RunTrace :=
  if job.status = some "success" ∨ job.status = some "failure" then
    let s := job.status.getD ""
    { workerLookedUp := false
      workerInvoked := false
      startedPosted := false
      call :=
        { status := s, result := .json (.obj []),
          time := shortCircuitTime job s now, failType := none } }
  else
    match Service.getWorker workers job.type with
    | none =>
      -- `getWorker` throws before the `started` update is posted; the
      -- catch block files the plain error, whose `JobError` is undefined.
      { workerLookedUp := true
        workerInvoked := false
        startedPosted := false
        call :=
          { status := "failure", result := .err (noWorkerError job.type),
            time := now, failType := (noWorkerError job.type).jobError } }
    | some w =>
      match outcome with
      | .resolved r =>
        { workerLookedUp := true, workerInvoked := true, startedPosted := true
          call :=
            { status := "success", result := .json r, time := now,
              failType := none } }
      | .timedOut =>
        { workerLookedUp := true, workerInvoked := true, startedPosted := true
          call :=
            { status := "failure", result := .err (timeoutError w.timeout),
              time := now, failType := some "timeout" } }
      | .threw e =>
        { workerLookedUp := true, workerInvoked := true, startedPosted := true
          call :=
            { status := "failure", result := .err e, time := now,
              failType := e.jobError } }

/-! ## `Runner.finish` (`src/Runner.ts`, current snapshot)

The finish procedure is embedded as a sequence of store operations over
an explicit store state, so that both the happy path (all operations
succeed) and fault injection (an operation throws, aborting the rest)
can be reasoned about. -/

/-- Truthiness of the optional `failType` string (`''` is falsy in JS). -/
def truthyStrOpt : Option String → Bool
  | none => false
  | some s => s != ""

/-- Full argument record of one `finish` invocation, after `run` has
supplied the call arguments and the Runner its identity: the update-post
wall-clock time and the `YYYY-MM-DD` rendering of the finish time are
taken as given strings. -/
structure FinishCall where
  status : String
  result : FinishArg
  failType : Option String
  updTime : String
  date : String
  jobKey : String
  oadaId : String
deriving Repr

/-- Whether `finish`'s `failType ?? result instanceof Error` condition
holds (JS `??` falls through only on null/undefined; a present string is
then tested for truthiness by the `if`). -/
def useSerialized (result : FinishArg) (failType : Option String) : Bool :=
  match failType with
  | some s => s != ""
  | none =>
    match result with
    | .err _ => true
    | .json _ => false

/-- The `data` object `finish` puts to the job document:
`result === null ? {status} : {status, result}`, overridden to the
serialized-error form when `failType ?? result instanceof Error`. -/
def isNullResult : FinishArg → Bool
  | .json .null => true
  | _ => false

/-- The JSON view of a finish result (only reached for JSON results; an
`Error` result always takes the serialized branch). -/
def resultAsJson : FinishArg → Json
  | .json j => j
  | .err e => serializeErrorArg (.err e)

def finishData (status : String) (result : FinishArg)
    (failType : Option String) : List (String × Json) :=
  if useSerialized result failType then
    [("status", .str status), ("result", serializeErrorArg result)]
  else if isNullResult result then
    [("status", .str status)]
  else
    [("status", .str status), ("result", resultAsJson result)]

/-- An OADA merge PUT of a flat data object into a document. -/
def putMerge (doc : List (String × Json)) (data : List (String × Json)) :
    List (String × Json) :=
  data.foldl (fun acc kv => jsSet acc kv.1 kv.2) doc

/-- One entry appended to the job's `updates` log by `postUpdate`. -/
structure UpdatePost where
  status : String
  time : String
  meta : String
deriving Repr, DecidableEq

/-- The final update `finish` posts (status, wall time, `'Runner finshed'`). -/
def finishUpdate (c : FinishCall) : UpdatePost :=
  { status := c.status, time := c.updTime, meta := "Runner finshed" }

/-- The slice of the store `finish` touches: the job document, its
updates log, the day indexes, the typed-failure indexes, and the pending
list.  Day-index buckets map job keys to the linked `_id`. -/
structure Store where
  jobDoc : List (String × Json)
  updates : List UpdatePost
  dayIndex : List ((String × String) × List (String × String))
  typedIndex : List ((String × String) × List (String × String))
  pending : List String
deriving Repr

/-- Merge the link `{jobKey: {_id, _rev: 0}}` into the day bucket at the
given index key (a tree PUT to a stable path). -/
def dayPut (idx : List ((String × String) × List (String × String)))
    (key : String × String) (jobKey oadaId : String) :
    List ((String × String) × List (String × String)) :=
  assocSet idx key (assocSet ((assocGet idx key).getD []) jobKey oadaId)

/-- The store operations `finish` performs, in program order.  The
finish-reporter notifications run after filing and do not touch the
store slice modelled here. -/
inductive FinishOp where
  | putJob
  | postUpd
  | putDay
  | putTyped
  | delPending
deriving Repr, DecidableEq

/-- The operation sequence of one `finish` invocation: put the terminal
`{status, result}`, post the final update, link under
`<status>/day-index/<date>`, link under
`typed-failure/<failType>/day-index/<date>` when `status === 'failure'`
and `failType` is truthy, then delete `pending/<jobKey>`. -/
def finishOps (c : FinishCall) : List FinishOp :=
  .putJob :: .postUpd :: .putDay ::
    (if c.status = "failure" ∧ truthyStrOpt c.failType then
      [.putTyped, .delPending]
     else [.delPending])

/-- The store effect of each single operation. -/
def applyOp (c : FinishCall) (st : Store) : FinishOp → Store
  | .putJob =>
    { st with
      jobDoc := putMerge st.jobDoc (finishData c.status c.result c.failType) }
  | .postUpd => { st with updates := st.updates ++ [finishUpdate c] }
  | .putDay =>
    { st with
      dayIndex := dayPut st.dayIndex (c.status, c.date) c.jobKey c.oadaId }
  | .putTyped =>
    { st with
      typedIndex :=
        dayPut st.typedIndex (c.failType.getD "", c.date) c.jobKey c.oadaId }
  | .delPending =>
    { st with pending := st.pending.filter (fun k => k != c.jobKey) }

/-- Run a sequence of store operations; an operation for which `fails`
holds throws, leaving its own effect and every later operation
unapplied (the exception propagates out of `finish`). -/
def execOps (c : FinishCall) : Store → List FinishOp → (FinishOp → Bool) →
    Store
  | st, [], _ => st
  | st, op :: rest, fails =>
    if fails op then st else execOps c (applyOp c st op) rest fails

/-- One `finish` invocation under fault injection. -/
def Runner.finish (st : Store) (c : FinishCall) (fails : FinishOp → Bool) :
    Store :=
  execOps c st (finishOps c) fails

/-- One `finish` invocation on the happy path (no store error). -/
def Runner.finishOk (st : Store) (c : FinishCall) : Store :=
  Runner.finish st c (fun _ => false)

/-! ## `Job.fromOada` (`src/Job.ts`) -/

/-- The `@oada/types` job assertion: the document must be an object
carrying `service`, `type` and `config`. -/
def isOADAJob (doc : Json) : Bool :=
  (jsGet doc "service").isSome && (jsGet doc "type").isSome &&
    (jsGet doc "config").isSome

/-- `Job.fromOada`: get the document; if the assertion fails, get it a
second time; the returned flag is the assertion on the finally read
document.  Result: (number of reads, document used, `isJob`).
`doc1`/`doc2` are what the two gets would return. -/
def Job.fromOada (doc1 doc2 : Json) : Nat × Json × Bool :=
  if isOADAJob doc1 then (1, doc1, isOADAJob doc1)
  else (2, doc2, isOADAJob doc2)

/-! ## `Queue.#Queue.doJobs` (current snapshot, `src/Queue.ts`) -/

/-- `stripResource`: destructure away the OADA meta keys
`_id, _rev, _meta, _type`, keeping all other entries in order. -/
def stripResource (o : List (String × Json)) : List (String × Json) :=
  o.filter (fun kv =>
    kv.1 != "_id" && kv.1 != "_rev" && kv.1 != "_meta" && kv.1 != "_type")

/-- `Queue.#Queue.doJobs` over the entries of a (stripped) change body: walk
`Object.entries(jobs)`; for each entry read `_id` off the value and,
when `!_id`, `return` — which exits `#Queue.doJobs` itself, so nothing later
in the list is processed; otherwise submit the job key to the
bounded-concurrency executor.  Returns the submitted job keys in order. -/
def Queue.doJobs : List (String × Json) → List String
  | [] => []
  | (jobKey, value) :: rest =>
    if jsTruthyOpt (jsGet value "_id") then jobKey :: Queue.doJobs rest
    else []

/-- Modelled from the spec: the dispatch the specification promises,
where an entry without a link field is skipped rather than aborting the
remaining entries ("the consumer ... never drop[s] ... change events";
this is also what the previous `Bluebird.map`-based revision of
`#Queue.doJobs` did, where `return` skipped only the current entry). -/
def Queue.doJobsSpec : List (String × Json) → List String
  | [] => []
  | (jobKey, value) :: rest =>
    if jsTruthyOpt (jsGet value "_id") then jobKey :: Queue.doJobsSpec rest
    else Queue.doJobsSpec rest

/-! ## `Report` (`src/Report.ts`) -/

/-- Replace every `~1` by `/` (first pass of RFC 6901 unescaping). -/
def replaceTilde1 : List Char → List Char
  | [] => []
  | [c] => [c]
  | c1 :: c2 :: rest =>
    if c1 = '~' ∧ c2 = '1' then '/' :: replaceTilde1 rest
    else c1 :: replaceTilde1 (c2 :: rest)

/-- Replace every `~0` by `~` (second pass of RFC 6901 unescaping). -/
def replaceTilde0 : List Char → List Char
  | [] => []
  | [c] => [c]
  | c1 :: c2 :: rest =>
    if c1 = '~' ∧ c2 = '0' then '~' :: replaceTilde0 rest
    else c1 :: replaceTilde0 (c2 :: rest)

/-- `json-pointer`'s token unescape: `~1` → `/` then `~0` → `~`. -/
def ptrUnescape (t : String) : String :=
  ⟨replaceTilde0 (replaceTilde1 t.data)⟩

/-- Split a character list on `/`. -/
def splitOnSlash (acc : List Char) : List Char → List (List Char)
  | [] => [acc.reverse]
  | c :: rest =>
    if c = '/' then acc.reverse :: splitOnSlash [] rest
    else splitOnSlash (c :: acc) rest

/-- `jp.parse`: split a pointer on `/`, drop the leading empty token,
unescape the rest. -/
def ptrParse (p : String) : List String :=
  ((splitOnSlash [] p.data).drop 1).map (fun cs => ptrUnescape ⟨cs⟩)

/-- RFC 6901 resolution of a token list against a JSON document
(`jp.get`, with `none` for the cases where `jp.has` is false). -/
def jpGet : Json → List String → Option Json
  | j, [] => some j
  | .obj o, t :: ts =>
    match getKey o t with
    | some v => jpGet v ts
    | none => none
  | .arr a, t :: ts =>
    match t.toNat? with
    | some i =>
      match a.get? i with
      | some v => jpGet v ts
      | none => none
    | none => none
  | _, _ :: _ => none

/-- `jp.has(job, pointer) ? jp.get(job, pointer) : ''`. -/
def jpValue (job : Json) (pointer : String) : Json :=
  match jpGet job (ptrParse pointer) with
  | some v => v
  | none => .str ""

/-- The path pieces of a filed item relative to a report's list watch:
four pieces `(failKind, 'day-index', date, jobKey)` for the failure
watch, three `('day-index', date, jobKey)` for the success watch.
`Report.reportItem` takes `errorType` from a four-piece path. -/
def errorTypeOf (pieces : List String) : Option String :=
  if pieces.length = 4 then some (pieces.getD 0 "") else none

def dateOfPieces (pieces : List String) : String :=
  if pieces.length = 4 then pieces.getD 2 "" else pieces.getD 1 ""

def jobidOfPieces (pieces : List String) : String :=
  if pieces.length = 4 then pieces.getD 3 "" else pieces.getD 2 ""

/-- The `errorMappings` column value:
`errorType ? (errorMappings[errorType] ?? 'Other Error') : 'Success'`. -/
def errorColumnValue (errorMappings : List (String × String))
    (errorType : Option String) : String :=
  if truthyStrOpt errorType then
    (assocGet errorMappings (errorType.getD "")).getD "Other Error"
  else "Success"

/-- A guarded assignment loop: `for (x of l) if (g x) data[x.1] = f x`. -/
def assignAll (g : String × String → Bool) (f : String × String → Json)
    (l : List (String × String)) (init : List (String × Json)) :
    List (String × Json) :=
  l.foldl (fun d x => if g x then jsSet d x.1 (f x) else d) init

/-- The row object `Report.reportItem` builds: first the `errorMappings`
columns, then (over the entries filtered to the rest) the
pointer-resolved columns. -/
def reportRow (jobMappings errorMappings : List (String × String))
    (errorType : Option String) (job : Json) : List (String × Json) :=
  assignAll (fun _ => true) (fun x => jpValue job x.2)
    (jobMappings.filter (fun x => x.2 != "errorMappings"))
    (assignAll (fun x => x.2 == "errorMappings")
      (fun _ => .str (errorColumnValue errorMappings errorType))
      jobMappings [])

/-- `Report.reportItem`: skip falsy jobs, jobs whose type is filtered
out, and jobs rejected by the user filter; otherwise parse the item
path and produce `(date, jobid, row)` for the PUT under
`reports/<name>/day-index/<date>/<jobid>`. -/
def Report.reportItem (rType : Option (List String)) (filter : Option (Json → Bool))
    (jobMappings errorMappings : List (String × String)) (job : Json)
    (path : String) : Option (String × String × List (String × Json)) :=
  if ¬ jsTruthy job then none
  else if (match rType, jsGet job "type" with
           | some ts, some (.str t) => !(ts.contains t)
           | _, _ => false) then none
  else if (match filter with
           | some f => !(f job)
           | none => false) then none
  else
    let pieces := ptrParse path
    some (dateOfPieces pieces, jobidOfPieces pieces,
      reportRow jobMappings errorMappings (errorTypeOf pieces) job)

/-! ### Cron aggregation (`Report.sendEmail`, `#gatherReportRecords`) -/

/-- One gathered report row: flat column→value pairs. -/
def ReportRecord := List (String × String)

/-- Union of the column names of the gathered rows in first-seen order
(the header `xlsx.utils.json_to_sheet` derives). -/
def csvHeaders (records : List ReportRecord) : List String :=
  records.foldl
    (fun acc r => acc ++ ((r.map Prod.fst).filter (fun k => ¬ acc.contains k)))
    []

/-- The CSV text of the gathered rows
(`xlsx.utils.sheet_to_csv(xlsx.utils.json_to_sheet(records))`): empty
for no rows, else a header line and one line per row. -/
def csvOf (records : List ReportRecord) : String :=
  match records with
  | [] => ""
  | _ =>
    let hs := csvHeaders records
    String.intercalate "\n"
      (String.intercalate "," hs ::
        records.map (fun r =>
          String.intercalate ","
            (hs.map (fun h => (assocGet r h).getD ""))))

def base64Table : List Char :=
  "ABCDEFGHIJKLMNOPQRSTUVWXYZabcdefghijklmnopqrstuvwxyz0123456789+/".toList

def base64Char (n : Nat) : Char := base64Table.getD n 'A'

/-- RFC 4648 base64 of a byte list. -/
def base64Bytes : List Nat → String
  | [] => ""
  | [a] =>
    String.mk [base64Char (a / 4), base64Char (a % 4 * 16)] ++ "=="
  | [a, b] =>
    String.mk
      [base64Char (a / 4), base64Char (a % 4 * 16 + b / 16),
       base64Char (b % 16 * 4)] ++ "="
  | a :: b :: c :: rest =>
    String.mk
      [base64Char (a / 4), base64Char (a % 4 * 16 + b / 16),
       base64Char (b % 16 * 4 + c / 64), base64Char (c % 64)] ++
      base64Bytes rest

/-- UTF-8 encoding of one character, as byte values. -/
def utf8Bytes (c : Char) : List Nat :=
  let n := c.toNat
  if n < 0x80 then [n]
  else if n < 0x800 then [0xC0 + n / 0x40, 0x80 + n % 0x40]
  else if n < 0x10000 then
    [0xE0 + n / 0x1000, 0x80 + n / 0x40 % 0x40, 0x80 + n % 0x40]
  else
    [0xF0 + n / 0x40000, 0x80 + n / 0x1000 % 0x40, 0x80 + n / 0x40 % 0x40,
     0x80 + n % 0x40]

/-- `Buffer.from(sheet, 'utf8').toString('base64')`. -/
def toBase64 (s : String) : String :=
  base64Bytes (s.data.map utf8Bytes).flatten

/-- `this.sendEmpty = rc.sendEmpty ?? false` in the `Report`
constructor. -/
def sendEmptyDefault (rc : Option Bool) : Bool := rc.getD false

/-- The report-side store state `Report.sendEmail` touches: the `lastCron`
watermark, the email-job documents posted to `/resources`, and the keys
linked into the downstream email service's pending list. -/
structure ReportState where
  lastCron : String
  emailResources : List (Json × String)
  emailPending : List String
deriving Repr

/-- The email job document `{service: 'abalonemail', type: 'email',
config}` with the attachment content set. -/
def emailJobDoc (config : Json) (attach : String) : Json × String :=
  (.obj [("service", .str "abalonemail"), ("type", .str "email"),
         ("config", config)], attach)

/-- `Report.sendEmail` as invoked by the cron tick (no arguments):
`#gatherReportRecords` collects the window's rows and advances
`lastCron` to the mailer's current fire time; the attachment is the
base64 CSV; when it is empty and `sendEmpty` is false the method
returns right there; otherwise the email job is posted and linked into
the email service's pending list under the new resource key. -/
def Report.sendEmail (st : ReportState) (records : List ReportRecord)
    (sendEmpty : Bool) (fireTime : String) (config : Json)
    (newKey : String) : ReportState :=
  let st1 := { st with lastCron := fireTime }
  let attach := toBase64 (csvOf records)
  if attach = "" && !sendEmpty then st1
  else
    { st1 with
      emailResources := st1.emailResources ++ [emailJobDoc config attach]
      emailPending := st1.emailPending ++ [newKey] }

/-! ## Spec-side definition for the short-circuit time (C2) -/

/-- Modelled from the spec's words, for comparison with the code's
`shortCircuitTime`: "`t` is taken from the most recent update whose
status matches" — the last matching entry of the (time-ordered) updates
log. -/
def specMostRecentMatchingTime (job : JobRec) (s : String) :
    Option String :=
  (((job.updates.getD []).filter (fun ku => ku.2.status == s)).getLast?).map
    (fun ku => ku.2.time)

/-! ## Plumbing between `run` and `finish`, and concrete fixtures -/

/-- Assemble the `FinishCall` record from a `run` trace's finish call and
the Runner's identity. -/
def callOf (a : FinishCallArgs) (updTime date jobKey oadaId : String) :
    FinishCall :=
  { status := a.status, result := a.result, failType := a.failType,
    updTime := updTime, date := date, jobKey := jobKey, oadaId := oadaId }

/-- An empty store, for concrete witnesses and counterexamples. -/
def emptyStore : Store :=
  { jobDoc := [], updates := [], dayIndex := [], typedIndex := [],
    pending := [] }

/-- A one-worker registry fixture. -/
def wrk1 : List (String × Worker) := [("w1", ⟨5000⟩)]

/-- A fresh (statusless) job of type `w1`. -/
def jobFresh : JobRec :=
  { oadaId := "resources/job1", type := "w1", status := none,
    updates := none }

/-- The finish call made for `jobFresh` when its worker resolves `null`. -/
def callNullResult : FinishCall :=
  callOf (Runner.run wrk1 jobFresh (.resolved .null) "NOW").call
    "U" "2024-01-01" "key1" "resources/job1"

/-- A job already terminal, with one `started` and one `success` update. -/
def jobDone : JobRec :=
  { oadaId := "resources/j2", type := "t", status := some "success",
    updates := some [("k1", ⟨"started", "T0"⟩), ("k2", ⟨"success", "T1"⟩)] }

/-- A terminal job with **two** updates matching its status. -/
def jobDoneTwice : JobRec :=
  { oadaId := "resources/j2", type := "t", status := some "success",
    updates := some [("k1", ⟨"success", "T1"⟩), ("k2", ⟨"success", "T2"⟩)] }

/-- A fresh job of a type with no registered worker. -/
def jobNoWorker : JobRec :=
  { oadaId := "resources/j4", type := "mytype", status := none,
    updates := none }

/-- The finish call made for `jobNoWorker` (empty registry). -/
def callNoWorker : FinishCall :=
  callOf (Runner.run [] jobNoWorker (.resolved (.obj [])) "NOW").call
    "U" "2024-01-01" "key4" "resources/j4"

/-- An invalid job document (test scenario D of the spec). -/
def invalidDoc : Json := .obj [("thisis", .str "not a valid job")]

/-- The `Job` record the constructor builds from `invalidDoc`: every
field it reads (`service`, `type`, `status`, `updates`) is `undefined`.
An undefined `type` matches no registered worker in the string-keyed
registry, and the `No worker registered for ${type}` template renders
it as `undefined` — represented here by the string `"undefined"`
together with an empty registry. -/
def jobInvalid : JobRec :=
  { oadaId := "resources/j5", type := "undefined", status := none,
    updates := none }

/-- The per-entry closure `Queue.#doJobs` submits to the
bounded-concurrency executor: instantiate a Runner; when the load
reported `isJob = false`, first `await runner.finish('failure', {},
dayjs())`; then **unconditionally** `await runner.run()` and apply the
finish call that run makes.  The first finish's update time and date
are `updTime1`/`date1`; run's wall clock and finish times are
`now2`/`updTime2`/`date2`. -/
def Queue.runEntry (workers : List (String × Worker)) (jobRec : JobRec)
    (isJob : Bool) (outcome : WorkerOutcome) (st : Store)
    (updTime1 date1 now2 updTime2 date2 jobKey : String) : Store :=
  let st1 :=
    if isJob then st
    else
      Runner.finishOk st
        { status := "failure", result := .json (.obj []), failType := none,
          updTime := updTime1, date := date1, jobKey := jobKey,
          oadaId := jobRec.oadaId }
  Runner.finishOk st1
    (callOf (Runner.run workers jobRec outcome now2).call updTime2 date2
      jobKey jobRec.oadaId)

/-- A pending-list change body: a resource `_id`/`_rev`, one entry with
no link, then one entry with a link. -/
def changeBody : List (String × Json) :=
  [("_id", .str "resources/pending"), ("_rev", .num 7),
   ("j1", .obj [("other", .str "x")]),
   ("j2", .obj [("_id", .str "resources/abc")])]

/-- A concrete successful finish call (for the idempotence claims). -/
def callSuccess : FinishCall :=
  { status := "success", result := .json (.obj [("ok", .bool true)]),
    failType := none, updTime := "U", date := "2024-01-01",
    jobKey := "key7", oadaId := "resources/j7" }

/-- A store holding one pending entry. -/
def storeWithPending : Store :=
  { jobDoc := [], updates := [], dayIndex := [], typedIndex := [],
    pending := ["key7"] }

/-- Fault injection making the final-update post throw. -/
def failPostUpd : FinishOp → Bool := fun op => op == FinishOp.postUpd

/-- Report fixtures mirroring test scenario E of the spec. -/
def jmFix : List (String × String) :=
  [("One", "/config/first"), ("Two", "/config/second"),
   ("Status", "errorMappings")]

def emFix : List (String × String) := [("success", "OK"), ("unknown", "Other")]

def jobFix : Json :=
  .obj [("type", .str "mytype"),
        ("config", .obj [("first", .str "a"), ("second", .str "b")])]

def successItemPath : String := "/day-index/2024-01-01/key8"

/-! ## Association-list lemmas -/

theorem getKey_jsSet_self (d : List (String × Json)) (k : String) (v : Json) :
    getKey (jsSet d k v) k = some v := by
  induction d with
  | nil => simp [jsSet, getKey]
  | cons hd tl ih =>
    obtain ⟨k', v'⟩ := hd
    by_cases h : k' = k <;> simp [jsSet, getKey, h, ih]

theorem getKey_jsSet_ne (d : List (String × Json)) {k c : String} (v : Json)
    (h : k ≠ c) : getKey (jsSet d k v) c = getKey d c := by
  induction d with
  | nil => simp [jsSet, getKey, h]
  | cons hd tl ih =>
    obtain ⟨k', v'⟩ := hd
    by_cases hk : k' = k
    · subst hk; simp [jsSet, getKey, h]
    · simp only [jsSet, if_neg hk, getKey]
      by_cases hc : k' = c <;> simp [hc, ih]

theorem jsSet_of_getKey_eq {d : List (String × Json)} {k : String} {v : Json}
    (h : getKey d k = some v) : jsSet d k v = d := by
  induction d with
  | nil => simp [getKey] at h
  | cons hd tl ih =>
    obtain ⟨k', v'⟩ := hd
    by_cases hk : k' = k
    · subst hk
      have hv : v' = v := by simpa [getKey] using h
      subst hv
      simp [jsSet]
    · simp only [getKey, if_neg hk] at h
      simp [jsSet, hk, ih h]

theorem assocGet_assocSet_self {κ α : Type} [DecidableEq κ]
    (l : List (κ × α)) (k : κ) (v : α) :
    assocGet (assocSet l k v) k = some v := by
  induction l with
  | nil => simp [assocSet, assocGet]
  | cons hd tl ih =>
    obtain ⟨k', v'⟩ := hd
    by_cases h : k' = k <;> simp [assocSet, assocGet, h, ih]

theorem assocSet_of_assocGet_eq {κ α : Type} [DecidableEq κ]
    {l : List (κ × α)} {k : κ} {v : α} (h : assocGet l k = some v) :
    assocSet l k v = l := by
  induction l with
  | nil => simp [assocGet] at h
  | cons hd tl ih =>
    obtain ⟨k', v'⟩ := hd
    by_cases hk : k' = k
    · subst hk
      have hv : v' = v := by simpa [assocGet] using h
      subst hv
      simp [assocSet]
    · simp only [assocGet, if_neg hk] at h
      simp [assocSet, hk, ih h]

theorem assocSet_idem {κ α : Type} [DecidableEq κ]
    (l : List (κ × α)) (k : κ) (v : α) :
    assocSet (assocSet l k v) k v = assocSet l k v :=
  assocSet_of_assocGet_eq (assocGet_assocSet_self l k v)

/-- Keys untouched by a merge PUT read the same before and after. -/
theorem getKey_putMerge_not_mem {L : List (String × Json)} {c : String}
    (d : List (String × Json)) (h : ∀ x ∈ L, x.1 ≠ c) :
    getKey (putMerge d L) c = getKey d c := by
  induction L generalizing d with
  | nil => rfl
  | cons hd tl ih =>
    simp only [putMerge, List.foldl_cons] at *
    rw [ih (jsSet d hd.1 hd.2) fun y hy => h y (List.mem_cons_of_mem _ hy)]
    exact getKey_jsSet_ne d hd.2 (h hd (List.mem_cons_self _ _))

/-- A merge PUT of a data object with distinct keys is idempotent. -/
theorem putMerge_idem {L : List (String × Json)}
    (hnd : (L.map Prod.fst).Nodup) (d : List (String × Json)) :
    putMerge (putMerge d L) L = putMerge d L := by
  induction L generalizing d with
  | nil => rfl
  | cons hd tl ih =>
    obtain ⟨k, v⟩ := hd
    simp only [List.map_cons, List.nodup_cons, List.mem_map] at hnd
    obtain ⟨hk, htl⟩ := hnd
    have hknot : ∀ x ∈ tl, x.1 ≠ k := by
      intro x hx hc
      exact hk ⟨x, hx, hc⟩
    simp only [putMerge, List.foldl_cons]
    have hg : getKey (List.foldl (fun acc kv => jsSet acc kv.1 kv.2)
        (jsSet d k v) tl) k = some v := by
      have := getKey_putMerge_not_mem (L := tl) (c := k)
        (jsSet d k v) hknot
      simpa [putMerge, getKey_jsSet_self] using this
    rw [jsSet_of_getKey_eq hg]
    exact ih htl (jsSet d k v)

/-- The keys of a `finish` data object are distinct. -/
theorem finishData_keys_nodup (status : String) (result : FinishArg)
    (failType : Option String) :
    ((finishData status result failType).map Prod.fst).Nodup := by
  unfold finishData
  split
  · simp
  · split <;> simp

/-- Re-linking the same job under the same day bucket is idempotent. -/
theorem dayPut_idem (idx : List ((String × String) × List (String × String)))
    (key : String × String) (jobKey oadaId : String) :
    dayPut (dayPut idx key jobKey oadaId) key jobKey oadaId =
      dayPut idx key jobKey oadaId := by
  unfold dayPut
  rw [assocGet_assocSet_self]
  simp only [Option.getD_some]
  rw [assocSet_idem, assocSet_idem]

/-- The linked `_id` is readable back from a day bucket after `dayPut`. -/
theorem dayPut_lookup (idx : List ((String × String) × List (String × String)))
    (key : String × String) (jobKey oadaId : String) :
    assocGet ((assocGet (dayPut idx key jobKey oadaId) key).getD [])
      jobKey = some oadaId := by
  unfold dayPut
  rw [assocGet_assocSet_self]
  simp only [Option.getD_some]
  exact assocGet_assocSet_self _ _ _

/-! ## `Runner.finishOk` in closed form -/

/-- The happy-path `finish` as one record update per store component. -/
theorem finishOk_eq (st : Store) (c : FinishCall) :
    Runner.finishOk st c =
      { jobDoc := putMerge st.jobDoc (finishData c.status c.result c.failType)
        updates := st.updates ++ [finishUpdate c]
        dayIndex := dayPut st.dayIndex (c.status, c.date) c.jobKey c.oadaId
        typedIndex :=
          if c.status = "failure" ∧ truthyStrOpt c.failType then
            dayPut st.typedIndex (c.failType.getD "", c.date) c.jobKey
              c.oadaId
          else st.typedIndex
        pending := st.pending.filter (fun k => k != c.jobKey) } := by
  by_cases h : c.status = "failure" ∧ truthyStrOpt c.failType <;>
    simp [Runner.finishOk, Runner.finish, finishOps, execOps, applyOp, h]

/-! ## Row-assignment lemmas (for `Report.reportItem`) -/

theorem assignAll_cons (g : String × String → Bool)
    (f : String × String → Json) (x : String × String)
    (l : List (String × String)) (init : List (String × Json)) :
    assignAll g f (x :: l) init =
      assignAll g f l (if g x then jsSet init x.1 (f x) else init) := rfl

/-- A column not named by any loop entry keeps its prior value. -/
theorem getKey_assignAll_not_mem {g : String × String → Bool}
    {f : String × String → Json} {l : List (String × String)} {c : String}
    (init : List (String × Json)) (h : ∀ x ∈ l, x.1 ≠ c) :
    getKey (assignAll g f l init) c = getKey init c := by
  induction l generalizing init with
  | nil => rfl
  | cons x tl ih =>
    rw [assignAll_cons,
      ih _ fun y hy => h y (List.mem_cons_of_mem _ hy)]
    by_cases hg : g x
    · simp only [hg, if_true]
      exact getKey_jsSet_ne init (f x) (h x (List.mem_cons_self _ _))
    · simp [hg]

/-- With distinct column names, an assigned column reads back its
assigned value. -/
theorem getKey_assignAll_mem {g : String × String → Bool}
    {f : String × String → Json} {l : List (String × String)}
    {c p : String} (init : List (String × Json))
    (hnd : (l.map Prod.fst).Nodup) (hmem : (c, p) ∈ l)
    (hg : g (c, p) = true) :
    getKey (assignAll g f l init) c = some (f (c, p)) := by
  induction l generalizing init with
  | nil => simp at hmem
  | cons x tl ih =>
    simp only [List.map_cons, List.nodup_cons, List.mem_map] at hnd
    obtain ⟨hhd, htl⟩ := hnd
    rcases List.mem_cons.mp hmem with hx | hx
    · subst hx
      rw [assignAll_cons, hg, if_pos rfl]
      rw [getKey_assignAll_not_mem _ fun y hy hc => hhd ⟨y, hy, hc⟩]
      exact getKey_jsSet_self init c (f (c, p))
    · rw [assignAll_cons]
      exact ih _ htl hx

/-- With distinct keys, membership determines the associated value. -/
theorem nodup_keys_mem_unique {l : List (String × String)} {c p q : String}
    (hnd : (l.map Prod.fst).Nodup) (h1 : (c, p) ∈ l) (h2 : (c, q) ∈ l) :
    p = q := by
  induction l with
  | nil => simp at h1
  | cons x tl ih =>
    simp only [List.map_cons, List.nodup_cons, List.mem_map] at hnd
    obtain ⟨hhd, htl⟩ := hnd
    rcases List.mem_cons.mp h1 with hx1 | hx1 <;>
      rcases List.mem_cons.mp h2 with hx2 | hx2
    · rw [← hx1] at hx2; exact (Prod.mk.injEq .. ▸ hx2).2.symm ▸ rfl
    · exact absurd ⟨(c, q), hx2, by rw [← hx1]⟩ hhd
    · exact absurd ⟨(c, p), hx1, by rw [← hx2]⟩ hhd
    · exact ih htl hx1 hx2

/-! ## `finishData` shape lemmas -/

theorem isNullResult_json_false {R : Json} (hR : R ≠ Json.null) :
    isNullResult (FinishArg.json R) = false := by
  cases R <;> first | rfl | exact absurd rfl hR

/-- A JSON result with no fail type is stored as-is (the
`result === null` and serialized-error branches are not taken). -/
theorem finishData_json (status : String) {R : Json} (hR : R ≠ Json.null) :
    finishData status (.json R) none =
      [("status", .str status), ("result", R)] := by
  simp [finishData, useSerialized, isNullResult_json_false hR, resultAsJson]

/-- An `Error` result with a nonempty fail type takes the
serialized-error branch. -/
theorem finishData_err_some (status : String) (e : JsError) {ft : String}
    (hft : ft ≠ "") :
    finishData status (.err e) (some ft) =
      [("status", .str status), ("result", serializeErrorArg (.err e))] := by
  simp [finishData, useSerialized, hft]

/-- An `Error` result with no fail type also takes the serialized-error
branch (`result instanceof Error`). -/
theorem finishData_err_none (status : String) (e : JsError) :
    finishData status (.err e) none =
      [("status", .str status), ("result", serializeErrorArg (.err e))] :=
  rfl

/-! ## Claims -/

/-- C1 (amended): for a worker resolving with JSON `R ≠ null`,
`Runner.run` calls `finish` with status `"success"` and the job document
afterwards holds `status == "success"` and `result == R`.  (For
`R = null` the `result` key is omitted; see the counterexample.) -/
theorem run_success_stores_result (workers : List (String × Worker))
    (job : JobRec) (w : Worker) (R : Json) (st : Store)
    (now updTime date jobKey : String)
    (hns : job.status ≠ some "success") (hnf : job.status ≠ some "failure")
    (hw : Service.getWorker workers job.type = some w)
    (hR : R ≠ Json.null) :
    (Runner.run workers job (.resolved R) now).call.status = "success" ∧
    (Runner.run workers job (.resolved R) now).call.time = now ∧
    getKey (Runner.finishOk st
        (callOf (Runner.run workers job (.resolved R) now).call updTime date
          jobKey job.oadaId)).jobDoc "status" = some (.str "success") ∧
    getKey (Runner.finishOk st
        (callOf (Runner.run workers job (.resolved R) now).call updTime date
          jobKey job.oadaId)).jobDoc "result" = some R := by
  have htr : Runner.run workers job (.resolved R) now =
      { workerLookedUp := true, workerInvoked := true, startedPosted := true
        call := { status := "success", result := .json R, time := now,
                  failType := none } } := by
    simp [Runner.run, hns, hnf, hw]
  rw [htr]
  refine ⟨rfl, rfl, ?_, ?_⟩ <;>
    rw [finishOk_eq] <;>
    simp only [callOf, finishData_json _ hR, putMerge, List.foldl_cons,
      List.foldl_nil]
  · rw [getKey_jsSet_ne _ _ (by decide : "result" ≠ "status")]
    exact getKey_jsSet_self st.jobDoc "status" (.str "success")
  · exact getKey_jsSet_self _ "result" R

/-- C1 witness. -/
theorem run_success_stores_result_witness :
    getKey (Runner.finishOk emptyStore
        (callOf (Runner.run wrk1 jobFresh (.resolved (.str "ok")) "NOW").call
          "U" "2024-01-01" "key1" jobFresh.oadaId)).jobDoc "result" =
      some (.str "ok") :=
  (run_success_stores_result wrk1 jobFresh ⟨5000⟩ (.str "ok") emptyStore
    "NOW" "U" "2024-01-01" "key1" (by simp [jobFresh]) (by simp [jobFresh])
    rfl (by simp)).2.2.2

/-- C1 counterexample: a worker resolving with `null` leaves the stored
job document without any `result` key, while the claim promises
`result == null` there. -/
theorem run_success_null_result_omitted :
    getKey (Runner.finishOk emptyStore callNullResult).jobDoc "result" =
      none ∧
    getKey (Runner.finishOk emptyStore callNullResult).jobDoc "status" =
      some (.str "success") :=
  ⟨rfl, rfl⟩

/-- C2 (amended): a job loaded with terminal status short-circuits — no
worker lookup, no worker invocation, no `started` update — to
`finish(status, {}, t)` where `t` is the time of the **first** updates
entry (in `Object.entries` order) whose status matches
(`shortCircuitTime`), else the wall clock `now`. -/
theorem run_terminal_short_circuits (workers : List (String × Worker))
    (job : JobRec) (outcome : WorkerOutcome) (now s : String)
    (hst : job.status = some s)
    (hs : s = "success" ∨ s = "failure") :
    Runner.run workers job outcome now =
      { workerLookedUp := false, workerInvoked := false,
        startedPosted := false
        call := { status := s, result := .json (.obj []),
                  time := shortCircuitTime job s now,
                  failType := none } } := by
  have hcond : job.status = some "success" ∨ job.status = some "failure" := by
    rcases hs with h | h <;> [left; right] <;> rw [hst, h]
  unfold Runner.run
  rw [if_pos hcond, hst]
  rfl

/-- C2 witness. -/
theorem run_terminal_short_circuits_witness :
    Runner.run [] jobDone .timedOut "NOW" =
      { workerLookedUp := false, workerInvoked := false,
        startedPosted := false
        call := { status := "success", result := .json (.obj []),
                  time := shortCircuitTime jobDone "success" "NOW",
                  failType := none } } :=
  run_terminal_short_circuits [] jobDone .timedOut "NOW" "success" rfl
    (.inl rfl)

/-- C2 counterexample: with two matching updates the code files the time
of the first one, not of the most recent one as the claim states. -/
theorem run_terminal_takes_first_not_most_recent :
    (Runner.run [] jobDoneTwice .timedOut "NOW").call.time = "T1" ∧
    specMostRecentMatchingTime jobDoneTwice "success" = some "T2" ∧
    ("T1" : String) ≠ "T2" :=
  ⟨rfl, rfl, by decide⟩

/-- C3: a worker that does not settle within its timeout is caught as a
`TimeoutError` and filed as a failure of kind `"timeout"` whose stored
serialized result has `name == "TimeoutError"`. -/
theorem run_timeout_files_timeout_failure (workers : List (String × Worker))
    (job : JobRec) (w : Worker) (st : Store)
    (now updTime date jobKey : String)
    (hns : job.status ≠ some "success") (hnf : job.status ≠ some "failure")
    (hw : Service.getWorker workers job.type = some w) :
    (Runner.run workers job .timedOut now).call.status = "failure" ∧
    (Runner.run workers job .timedOut now).call.failType = some "timeout" ∧
    (Runner.run workers job .timedOut now).call.result =
      .err (timeoutError w.timeout) ∧
    getKey (Runner.finishOk st
        (callOf (Runner.run workers job .timedOut now).call updTime date
          jobKey job.oadaId)).jobDoc "status" = some (.str "failure") ∧
    ((getKey (Runner.finishOk st
        (callOf (Runner.run workers job .timedOut now).call updTime date
          jobKey job.oadaId)).jobDoc "result").bind
      (fun r => jsGet r "name")) = some (.str "TimeoutError") := by
  have htr : Runner.run workers job .timedOut now =
      { workerLookedUp := true, workerInvoked := true, startedPosted := true
        call := { status := "failure",
                  result := .err (timeoutError w.timeout),
                  time := now, failType := some "timeout" } } := by
    simp [Runner.run, hns, hnf, hw]
  rw [htr]
  refine ⟨rfl, rfl, rfl, ?_, ?_⟩ <;>
    rw [finishOk_eq] <;>
    simp only [callOf,
      finishData_err_some _ _ (by decide : ("timeout" : String) ≠ ""),
      putMerge, List.foldl_cons, List.foldl_nil]
  · rw [getKey_jsSet_ne _ _ (by decide : "result" ≠ "status")]
    exact getKey_jsSet_self st.jobDoc "status" (.str "failure")
  · rw [getKey_jsSet_self]
    rfl

/-- C3 witness. -/
theorem run_timeout_files_timeout_failure_witness :
    (Runner.run wrk1 jobFresh .timedOut "NOW").call.failType =
      some "timeout" :=
  (run_timeout_files_timeout_failure wrk1 jobFresh ⟨5000⟩ emptyStore "NOW"
    "U" "2024-01-01" "key3" (by simp [jobFresh]) (by simp [jobFresh])
    rfl).2.1

/-- C4 (amended): with no worker registered for the job's type,
`Runner.run` fails fast — the registry lookup throws before the
`started` update and before any worker invocation — and the job is
filed as a plain failure carrying the serialized
`No worker registered for <type>` error with **no** fail kind, so no
typed-failure filing happens. -/
theorem run_no_worker_fails_fast (workers : List (String × Worker))
    (job : JobRec) (outcome : WorkerOutcome) (st : Store)
    (now updTime date jobKey : String)
    (hns : job.status ≠ some "success") (hnf : job.status ≠ some "failure")
    (hw : Service.getWorker workers job.type = none) :
    (Runner.run workers job outcome now).workerInvoked = false ∧
    (Runner.run workers job outcome now).startedPosted = false ∧
    (Runner.run workers job outcome now).call.status = "failure" ∧
    (Runner.run workers job outcome now).call.result =
      .err (noWorkerError job.type) ∧
    (Runner.run workers job outcome now).call.failType = none ∧
    getKey (Runner.finishOk st
        (callOf (Runner.run workers job outcome now).call updTime date
          jobKey job.oadaId)).jobDoc "status" = some (.str "failure") ∧
    (Runner.finishOk st
        (callOf (Runner.run workers job outcome now).call updTime date
          jobKey job.oadaId)).typedIndex = st.typedIndex := by
  have htr : Runner.run workers job outcome now =
      { workerLookedUp := true, workerInvoked := false,
        startedPosted := false
        call := { status := "failure",
                  result := .err (noWorkerError job.type),
                  time := now, failType := none } } := by
    simp [Runner.run, hns, hnf, hw, noWorkerError]
  rw [htr]
  refine ⟨rfl, rfl, rfl, rfl, rfl, ?_, ?_⟩ <;> rw [finishOk_eq]
  · simp only [callOf, finishData_err_none, putMerge, List.foldl_cons,
      List.foldl_nil]
    rw [getKey_jsSet_ne _ _ (by decide : "result" ≠ "status")]
    exact getKey_jsSet_self st.jobDoc "status" (.str "failure")
  · simp [callOf, truthyStrOpt]

/-- C4 witness. -/
theorem run_no_worker_fails_fast_witness :
    (Runner.run [] jobNoWorker (.resolved (.obj [])) "NOW").workerInvoked =
      false :=
  (run_no_worker_fails_fast [] jobNoWorker (.resolved (.obj [])) emptyStore
    "NOW" "U" "2024-01-01" "key4" (by simp [jobNoWorker])
    (by simp [jobNoWorker]) rfl).1

/-- C4 counterexample: the failure is filed with no fail kind at all —
`failType` is `undefined`, not `"no-worker"`, and nothing is linked
under the typed-failure index. -/
theorem run_no_worker_has_no_kind :
    (Runner.run [] jobNoWorker (.resolved (.obj []))
        "NOW").call.failType ≠ some "no-worker" ∧
    (Runner.run [] jobNoWorker (.resolved (.obj []))
        "NOW").call.failType = none ∧
    (Runner.finishOk emptyStore callNoWorker).typedIndex = [] :=
  ⟨by simp [Runner.run, jobNoWorker, Service.getWorker, assocGet,
      noWorkerError], rfl, rfl⟩

/-- C5 (amended): a pending entry whose linked document fails the
`{service, type, config}` validation on both reads is read exactly twice
(one get plus one retry) and the load reports `isJob = false`.  The
Queue's closure immediately finishes the job as a failure with empty
result `{}` — but `#doJobs` then unconditionally awaits `runner.run()`,
and for such a document (no terminal status, no registered worker for
its type) the no-worker catch re-finishes the job, overwriting the
empty result with the serialized `No worker registered for <type>`
error. -/
theorem invalid_job_finish_then_rerun (doc1 doc2 : Json)
    (workers : List (String × Worker)) (jobRec : JobRec)
    (outcome : WorkerOutcome) (st : Store)
    (updTime1 date1 now2 updTime2 date2 jobKey : String)
    (h1 : isOADAJob doc1 = false) (h2 : isOADAJob doc2 = false)
    (hns : jobRec.status ≠ some "success")
    (hnf : jobRec.status ≠ some "failure")
    (hw : Service.getWorker workers jobRec.type = none) :
    (Job.fromOada doc1 doc2).1 ≤ 2 ∧
    Job.fromOada doc1 doc2 = (2, doc2, false) ∧
    getKey (Runner.finishOk st
        { status := "failure", result := .json (.obj []), failType := none,
          updTime := updTime1, date := date1, jobKey := jobKey,
          oadaId := jobRec.oadaId }).jobDoc "result" = some (.obj []) ∧
    getKey (Queue.runEntry workers jobRec false outcome st
        updTime1 date1 now2 updTime2 date2 jobKey).jobDoc "status" =
      some (.str "failure") ∧
    getKey (Queue.runEntry workers jobRec false outcome st
        updTime1 date1 now2 updTime2 date2 jobKey).jobDoc "result" =
      some (serializeErrorArg (.err (noWorkerError jobRec.type))) := by
  have hd : finishData "failure" (.json (.obj [])) none =
      [("status", .str "failure"), ("result", .obj [])] :=
    finishData_json _ (by simp)
  have htr : Runner.run workers jobRec outcome now2 =
      { workerLookedUp := true, workerInvoked := false,
        startedPosted := false
        call := { status := "failure",
                  result := .err (noWorkerError jobRec.type),
                  time := now2, failType := none } } := by
    simp [Runner.run, hns, hnf, hw, noWorkerError]
  refine ⟨?_, ?_, ?_, ?_, ?_⟩
  · unfold Job.fromOada
    split <;> simp
  · simp [Job.fromOada, h1, h2]
  · rw [finishOk_eq]
    simp only [hd, putMerge, List.foldl_cons, List.foldl_nil]
    exact getKey_jsSet_self _ "result" (.obj [])
  · simp only [Queue.runEntry, if_neg (by simp : ¬(false = true)), htr]
    rw [finishOk_eq]
    simp only [callOf, finishData_err_none, putMerge, List.foldl_cons,
      List.foldl_nil]
    rw [getKey_jsSet_ne _ _ (by decide : "result" ≠ "status")]
    exact getKey_jsSet_self _ "status" (.str "failure")
  · simp only [Queue.runEntry, if_neg (by simp : ¬(false = true)), htr]
    rw [finishOk_eq]
    simp only [callOf, finishData_err_none, putMerge, List.foldl_cons,
      List.foldl_nil]
    exact getKey_jsSet_self _ "result" _

/-- C5 witness (scenario D's invalid document, empty registry). -/
theorem invalid_job_finish_then_rerun_witness :
    getKey (Queue.runEntry [] jobInvalid false (.resolved (.obj []))
        emptyStore "U0" "2024-01-01" "NOW" "U" "2024-01-01"
        "key5").jobDoc "status" = some (.str "failure") :=
  (invalid_job_finish_then_rerun invalidDoc invalidDoc [] jobInvalid
    (.resolved (.obj [])) emptyStore "U0" "2024-01-01" "NOW" "U"
    "2024-01-01" "key5" rfl rfl (by simp [jobInvalid])
    (by simp [jobInvalid]) rfl).2.2.2.1

/-- C5 counterexample: after the full per-entry closure runs, the
stored result for scenario D's invalid job is the serialized
`No worker registered for undefined` error — not the empty result `{}`
the claim states it is left filed with. -/
theorem invalid_job_result_overwritten :
    getKey (Queue.runEntry [] jobInvalid false (.resolved (.obj []))
        emptyStore "U0" "2024-01-01" "NOW" "U" "2024-01-01"
        "key5").jobDoc "result" =
      some (serializeErrorArg (.err (noWorkerError "undefined"))) ∧
    serializeErrorArg (.err (noWorkerError "undefined")) ≠ Json.obj [] :=
  ⟨rfl, by simp [serializeErrorArg, noWorkerError]⟩

/-- C6: evaluating `Queue.#doJobs` on a change body holding a link-less
entry before a linked entry.  After `stripResource` both job entries
remain, but the `return` taken for the link-less entry `j1` exits the
whole dispatch loop, so the linked entry `j2` is never submitted — the
code drops it, while the spec-mandated dispatch (`Queue.doJobsSpec`,
matching the earlier `Bluebird.map` revision) submits it. -/
theorem doJobs_drops_entries_after_linkless :
    stripResource changeBody =
      [("j1", .obj [("other", .str "x")]),
       ("j2", .obj [("_id", .str "resources/abc")])] ∧
    Queue.doJobs (stripResource changeBody) = [] ∧
    Queue.doJobsSpec (stripResource changeBody) = ["j2"] :=
  ⟨rfl, rfl, rfl⟩

/-- C7 (amended): re-invoking `finish` with the same inputs reproduces
the same job document, day-index links, typed links and pending state,
but appends one more `Runner finshed` entry to the updates log — the
updates post is a POST to a fresh key, not a write to a stable key. -/
theorem finish_rerun_only_appends_update (st : Store) (c : FinishCall) :
    Runner.finishOk (Runner.finishOk st c) c =
      { Runner.finishOk st c with
        updates := (Runner.finishOk st c).updates ++ [finishUpdate c] } := by
  rw [finishOk_eq st c, finishOk_eq]
  by_cases h : c.status = "failure" ∧ truthyStrOpt c.failType <;>
    simp [h, Store.mk.injEq,
      putMerge_idem (finishData_keys_nodup c.status c.result c.failType),
      dayPut_idem, List.filter_filter]
  exact putMerge_idem (finishData_keys_nodup _ _ _) _

/-- C7 counterexample: running `finish` twice leaves two updates-log
entries where one run leaves one, so the store states differ. -/
theorem finish_twice_appends_extra_update :
    (Runner.finishOk (Runner.finishOk emptyStore callSuccess)
        callSuccess).updates.length = 2 ∧
    (Runner.finishOk emptyStore callSuccess).updates.length = 1 :=
  ⟨rfl, rfl⟩

/-- C8: for every row `reportItem` writes, a `jobMappings` column whose
pointer is not `errorMappings` holds the JSON-pointer resolution of the
pointer against the job (or `""` when missing), and an `errorMappings`
column holds `errorMappings[failKind]`, `"Other Error"` for an unmapped
kind, or `"Success"` for a success-path item. -/
theorem report_row_column_law (rType : Option (List String))
    (filter : Option (Json → Bool))
    (jobMappings errorMappings : List (String × String)) (job : Json)
    (path date jobid : String) (row : List (String × Json))
    (col ptr : String)
    (hnd : (jobMappings.map Prod.fst).Nodup)
    (hmem : (col, ptr) ∈ jobMappings)
    (hrep : Report.reportItem rType filter jobMappings errorMappings job
      path = some (date, jobid, row)) :
    getKey row col =
      some (if ptr = "errorMappings" then
              .str (errorColumnValue errorMappings
                (errorTypeOf (ptrParse path)))
            else jpValue job ptr) := by
  have hrow : row =
      reportRow jobMappings errorMappings (errorTypeOf (ptrParse path))
        job := by
    unfold Report.reportItem at hrep
    split at hrep
    · exact absurd hrep (by simp)
    split at hrep
    · exact absurd hrep (by simp)
    split at hrep
    · exact absurd hrep (by simp)
    simp only [Option.some.injEq, Prod.mk.injEq] at hrep
    exact hrep.2.2.symm
  subst hrow
  unfold reportRow
  by_cases hp : ptr = "errorMappings"
  · subst hp
    rw [if_pos rfl]
    have hno : ∀ y ∈ jobMappings.filter (fun x => x.2 != "errorMappings"),
        y.1 ≠ col := by
      rintro ⟨y1, y2⟩ hy hc
      obtain ⟨hyl, hyp⟩ := List.mem_filter.mp hy
      simp only at hc
      subst hc
      have hy2 : y2 = "errorMappings" :=
        nodup_keys_mem_unique hnd hyl hmem
      rw [hy2] at hyp
      simp at hyp
    rw [getKey_assignAll_not_mem _ hno]
    exact getKey_assignAll_mem _ hnd hmem (by simp)
  · rw [if_neg hp]
    apply getKey_assignAll_mem
    · exact List.Nodup.sublist
        (List.Sublist.map Prod.fst (List.filter_sublist _)) hnd
    · exact List.mem_filter.mpr ⟨hmem, by simp [hp]⟩
    · rfl

/-- C8 witness (test scenario E's success item). -/
theorem report_row_column_law_witness :
    getKey (reportRow jmFix emFix (errorTypeOf (ptrParse successItemPath))
      jobFix) "One" = some (jpValue jobFix "/config/first") := by
  have h := report_row_column_law none none jmFix emFix jobFix
    successItemPath "2024-01-01" "key8"
    (reportRow jmFix emFix (errorTypeOf (ptrParse successItemPath)) jobFix)
    "One" "/config/first" (by decide) (by decide) rfl
  rwa [if_neg (by decide : ¬("/config/first" = "errorMappings"))] at h

/-- C9: when the cron handler gathers zero rows and `sendEmpty` was left
at its `?? false` default, no email-job resource is posted and nothing
is linked into the email service's pending list, but the `lastCron`
watermark still advances to the current fire time. -/
theorem report_empty_rows_skips_email (st : ReportState)
    (fireTime : String) (config : Json) (newKey : String) :
    Report.sendEmail st [] (sendEmptyDefault none) fireTime config newKey =
      { st with lastCron := fireTime } := by
  have h : toBase64 (csvOf []) = "" := rfl
  simp [Report.sendEmail, sendEmptyDefault, h]

/-- C10: `finish` deletes `pending/<jobKey>` only after the terminal
`{status, result}` put, the final update post and the day-index link put
have all succeeded: if any of those throws, the pending entry is left in
place; and on a fully successful run the pending entry is removed. -/
theorem finish_deletes_pending_only_after_writes (st : Store)
    (c : FinishCall) (fails : FinishOp → Bool) :
    (fails .putJob = true ∨ fails .postUpd = true ∨ fails .putDay = true →
      (Runner.finish st c fails).pending = st.pending) ∧
    ((∀ op, fails op = false) →
      (Runner.finish st c fails).pending =
        st.pending.filter (fun k => k != c.jobKey)) := by
  constructor
  · intro h
    unfold Runner.finish finishOps
    by_cases f1 : fails .putJob
    · simp [execOps, f1]
    by_cases f2 : fails .postUpd
    · simp [execOps, applyOp, f1, f2]
    by_cases f3 : fails .putDay
    · simp [execOps, applyOp, f1, f2, f3]
    · rcases h with h | h | h <;> simp_all
  · intro h
    unfold Runner.finish finishOps
    by_cases ht : c.status = "failure" ∧ truthyStrOpt c.failType <;>
      simp [execOps, applyOp, ht, h]

/-- C10 witness: a failing final-update post leaves the pending entry. -/
theorem finish_deletes_pending_only_after_writes_witness :
    (Runner.finish storeWithPending callSuccess failPostUpd).pending =
      storeWithPending.pending :=
  (finish_deletes_pending_only_after_writes storeWithPending callSuccess
    failPostUpd).1 (Or.inr (Or.inl rfl))

end OadaJobs
